import Mathlib

/-!
Verification development for the Cairo runner glue layer of
`src/cairo_stack/src/runner.rs` (zkml-benchmark).

The Rust source is shallowly embedded in Lean:
* field elements (`Felt252`) are natural numbers reduced modulo the Stark
  prime; `i16`/ap-offset arithmetic is modelled as unbounded `Int`
  (no claim below depends on 16-bit wraparound);
* `usize` subtraction is modelled with an explicit underflow outcome,
  matching Rust's checked-arithmetic (overflow panic) semantics;
* fallible Rust code returning `Result` becomes `Except`; a Rust `panic!`
  (e.g. `Option::unwrap` on `None`) and a provably infinite loop are
  modelled as distinguished outcome constructors;
* strings are handled through their character lists so that every
  definition is executable by kernel reduction.
-/

/-- The Stark field prime used by `Felt252`. -/
def starkFieldOrder : Nat := 3618502788666131213697322783095070105623107215331596699973092056135872020481

/-- Digits-only decimal reading of a character list. -/
def decDigitsVal (cs : List Char) : Nat :=
  cs.foldl (fun a c => 10 * a + (c.toNat - 48)) 0

/-- Model of `Felt252::from_dec_str`: accepts an optional leading minus sign
followed by a non-empty run of decimal digits, reduced into the field;
every other string is rejected (`None`). -/
def from_dec_str (cs : List Char) : Option Nat :=
  match cs with
  | '-' :: rest =>
    if rest ≠ [] ∧ rest.all Char.isDigit then
      some ((starkFieldOrder - decDigitsVal rest % starkFieldOrder) % starkFieldOrder)
    else none
  | _ =>
    if cs ≠ [] ∧ cs.all Char.isDigit then some (decDigitsVal cs % starkFieldOrder)
    else none

/-- Model of the Rust `FuncArg` enum: a single field element or an array of
field elements. -/
inductive FuncArg
| Array (values : List Nat)
| Single (value : Nat)
deriving DecidableEq

/-- Model of `str::split(' ')`: splits a character list at every space,
keeping empty pieces, exactly like the Rust iterator. -/
def splitOnSpace : List Char → List (List Char)
| [] => [[]]
| c :: rest =>
  if c = ' ' then [] :: splitOnSpace rest
  else
    match splitOnSpace rest with
    | t :: ts => (c :: t) :: ts
    | [] => [[c]]

/-- Possible outcomes of `process_args`.  The Rust function's type is
`Result<FuncArgs, String>` but its body never produces `Err`: an invalid
token hits `Felt252::from_dec_str(..).unwrap()` (a panic), and a `[` token
with no later `]`-terminated token leaves the inner `while !array_end`
loop spinning on an exhausted iterator forever. -/
inductive ParseOutcome
| ok (args : List FuncArg)
| panicFromDecStr
| divergesUnterminatedArray
deriving DecidableEq

/-- One pass over the token list, mirroring the two nested loops of
`process_args` as a mode flag: `none` is the outer loop, `some acc` is the
inner array-collection loop holding the elements gathered so far.  Token
list exhausted while still in array mode is exactly the Rust infinite
loop. -/
def processTokens : List (List Char) → List FuncArg → Option (List Nat) → ParseOutcome
| [], args, none => ParseOutcome.ok args
| [], _, some _ => ParseOutcome.divergesUnterminatedArray
| t :: rest, args, none =>
  if t.head? = some '[' then
    match from_dec_str (t.drop 1) with
    | none => ParseOutcome.panicFromDecStr
    | some v => processTokens rest args (some [v])
  else
    match from_dec_str t with
    | none => ParseOutcome.panicFromDecStr
    | some v => processTokens rest (args ++ [FuncArg.Single v]) none
| t :: rest, args, some acc =>
  if t.getLast? = some ']' then
    match from_dec_str t.dropLast with
    | none => ParseOutcome.panicFromDecStr
    | some v => processTokens rest (args ++ [FuncArg.Array (acc ++ [v])]) none
  else
    match from_dec_str t with
    | none => ParseOutcome.panicFromDecStr
    | some v => processTokens rest args (some (acc ++ [v]))

/-- Model of `process_args` (runner.rs lines 78-111). -/
def process_args (value : String) : ParseOutcome :=
  if value = "" then ParseOutcome.ok []
  else processTokens (splitOnSpace value.data) [] none

/-- Model of `cairo_vm`'s `Relocatable`: a segment index and a cell offset. -/
structure Relocatable where
  segment_index : Int
  offset : Nat
deriving DecidableEq

/-- Model of `MaybeRelocatable`: either a field element or a pointer. -/
inductive MaybeRelocatable
| Int (v : Nat)
| RelocatableValue (r : Relocatable)
deriving DecidableEq

/-- Model of `MaybeRelocatable::get_relocatable`. -/
def get_relocatable : MaybeRelocatable → Option Relocatable
| MaybeRelocatable.RelocatableValue r => some r
| MaybeRelocatable.Int _ => none

/-- The VM memory, abstracted as a partial map from (segment, offset) to
field elements; `none` is an unknown or non-integer cell. -/
def Mem : Type := Int → Nat → Option Nat

/-- Model of `VirtualMachine::get_integer_range`: reads `len` consecutive
integer cells starting at `addr`, failing if any cell is missing. -/
def get_integer_range (mem : Mem) (addr : Relocatable) (len : Nat) : Option (List Nat) :=
  (List.range len).mapM (fun i => mem addr.segment_index (addr.offset + i))

/-- Model of `Relocatable - Relocatable` from `cairo_vm`: defined only for
pointers in the same segment with non-decreasing offsets. -/
def rel_sub (a b : Relocatable) : Option Nat :=
  if a.segment_index = b.segment_index ∧ b.offset ≤ a.offset then some (a.offset - b.offset)
  else none

/-- Rust `usize` subtraction under overflow checks: `none` is the
debug-profile underflow panic. -/
def usizeSub (a b : Nat) : Option Nat :=
  if b ≤ a then some (a - b) else none

/-- Decoded return values, mirroring the Rust `ReturnValue` enum. -/
inductive ReturnValue
| Int (v : Nat)
| Array (arr : List ReturnValue)

/-- Errors of the result-decoding tail of `run` (runner.rs lines 319-442).
`UsizeUnderflowPanic` models the checked-subtraction panic at
`return_values.len() - 2`. -/
inductive RunError
| FailedToExtractReturnValues
| TypeIdNoDebugName
| RunPanic (data : List Nat)
| MemoryGetRange
| MathError
| UsizeUnderflowPanic

/-- The `starts_with("core::panics::PanicResult::")` test on the return
type's debug name. -/
def isPanicResultName (name : String) : Bool :=
  List.isPrefixOf ("core::panics::PanicResult::").data name.data

/-- Model of the panic-convention handling in `run` (runner.rs lines
331-364): on a nonzero failure flag, read the panic payload between the
last two return values and fail the run with it; on a zero flag, require
at least 3 raw values and drop the flag. -/
def decode_return_values (mem : Mem) (debug_name : Option String)
    (return_values : List MaybeRelocatable) : Except RunError (List MaybeRelocatable) :=
  match debug_name with
  | none => Except.error RunError.TypeIdNoDebugName
  | some name =>
    if isPanicResultName name then
      if return_values.head? ≠ some (MaybeRelocatable.Int 0) then
        match return_values.getLast? with
        | none => Except.error RunError.FailedToExtractReturnValues
        | some lastVal =>
          match get_relocatable lastVal with
          | none => Except.error RunError.FailedToExtractReturnValues
          | some panic_data_end =>
            match usizeSub return_values.length 2 with
            | none => Except.error RunError.UsizeUnderflowPanic
            | some startIdx =>
              match return_values.get? startIdx with
              | none => Except.error RunError.FailedToExtractReturnValues
              | some startVal =>
                match get_relocatable startVal with
                | none => Except.error RunError.FailedToExtractReturnValues
                | some panic_data_start =>
                  match rel_sub panic_data_end panic_data_start with
                  | none => Except.error RunError.MathError
                  | some len =>
                    match get_integer_range mem panic_data_start len with
                    | none => Except.error RunError.MemoryGetRange
                    | some panic_data => Except.error (RunError.RunPanic panic_data)
      else
        if return_values.length < 3 then Except.error RunError.FailedToExtractReturnValues
        else Except.ok (return_values.drop 1)
    else Except.ok return_values

/-- One step of the loop in `fetch_arrays_from_memory`: an integer is kept
as a scalar; a pointer is paired with the value right after its first
occurrence in the full list (`skip_while(!= value).nth(1)`), and the
memory range between the two pointers becomes a decoded array; a
malformed pair or failed read contributes nothing. -/
def fetchOne (mem : Mem) (allValues : List MaybeRelocatable) (value : MaybeRelocatable) :
    List ReturnValue :=
  match value with
  | MaybeRelocatable.Int n => [ReturnValue.Int n]
  | MaybeRelocatable.RelocatableValue addr =>
    match (allValues.dropWhile (fun w => decide (w ≠ value))).get? 1 with
    | some (MaybeRelocatable.RelocatableValue end_addr) =>
      if addr.segment_index = end_addr.segment_index ∧ addr.offset < end_addr.offset then
        match get_integer_range mem addr (end_addr.offset - addr.offset) with
        | some values => [ReturnValue.Array (values.map ReturnValue.Int)]
        | none => []
      else []
    | _ => []

/-- Model of `fetch_arrays_from_memory` (runner.rs lines 472-513); the Rust
function's only exit is `Ok`, read failures being logged and skipped. -/
def fetch_arrays_from_memory (mem : Mem) (return_values : List MaybeRelocatable) :
    Except RunError (List ReturnValue) :=
  Except.ok (return_values.flatMap (fetchOne mem return_values))

/-- The full result-decoding tail of `run`: panic-convention handling
followed by array reconstruction. -/
def run_decode (mem : Mem) (debug_name : Option String)
    (return_values : List MaybeRelocatable) : Except RunError (List ReturnValue) :=
  match decode_return_values mem debug_name return_values with
  | Except.error e => Except.error e
  | Except.ok vs => fetch_arrays_from_memory mem vs

/-- Generic type identifiers relevant to the runner: the five builtins it
recognizes, the three resource types, and an opaque tag for every other
(user value) type. -/
inductive GenericTypeId
| Poseidon | EcOp | Bitwise | RangeCheck | Pedersen
| System | GasBuiltin | SegmentArena
| UserType (idx : Nat)
deriving DecidableEq

/-- Builtin names in the formatting expected by the runner. -/
inductive BuiltinName
| poseidon | ec_op | bitwise | range_check | pedersen
deriving DecidableEq

/-- A parameter type of the callee, bundling the facts the runner queries
about it: the concrete type's debug name (matched textually by
`get_function_builtins`), the registry's generic type id (matched by
`create_entry_code`), and its slot size from the `type_sizes` map.
Registry and size lookups are total in the model. -/
structure ParamTy where
  debugName : Option String
  genericId : GenericTypeId
  size : Int
deriving DecidableEq

/-- The `entry_params.iter().any(|ti| ti.debug_name == Some(name))` test. -/
def hasParamNamed (entry_params : List ParamTy) (name : String) : Bool :=
  entry_params.any (fun ti => ti.debugName == some name)

/-- Model of `get_function_builtins` (runner.rs lines 777-829): probe the
parameter list for each of the five recognized builtins in the fixed
order poseidon, ec-op, bitwise, range-check, pedersen, assigning frame
offsets from 3 upward, then reverse the collected builtin-name list.
The `HashMap` of offsets is modelled as an association list. -/
def get_function_builtins (entry_params : List ParamTy) :
    List BuiltinName × List (GenericTypeId × Int) :=
  let builtins0 : List BuiltinName := []
  let offsets0 : List (GenericTypeId × Int) := []
  let cur0 : Int := 3
  let s1 :=
    if hasParamNamed entry_params ("Poseidon") then
      (builtins0 ++ [BuiltinName.poseidon], offsets0 ++ [(GenericTypeId.Poseidon, cur0)], cur0 + 1)
    else (builtins0, offsets0, cur0)
  let s2 :=
    if hasParamNamed entry_params ("EcOp") then
      (s1.1 ++ [BuiltinName.ec_op], s1.2.1 ++ [(GenericTypeId.EcOp, s1.2.2)], s1.2.2 + 1)
    else s1
  let s3 :=
    if hasParamNamed entry_params ("Bitwise") then
      (s2.1 ++ [BuiltinName.bitwise], s2.2.1 ++ [(GenericTypeId.Bitwise, s2.2.2)], s2.2.2 + 1)
    else s2
  let s4 :=
    if hasParamNamed entry_params ("RangeCheck") then
      (s3.1 ++ [BuiltinName.range_check], s3.2.1 ++ [(GenericTypeId.RangeCheck, s3.2.2)], s3.2.2 + 1)
    else s3
  let s5 :=
    if hasParamNamed entry_params ("Pedersen") then
      (s4.1 ++ [BuiltinName.pedersen], s4.2.1 ++ [(GenericTypeId.Pedersen, s4.2.2)], s4.2.2)
    else s4
  (s5.1.reverse, s5.2.1)

/-- The fixed probing order of `get_function_builtins`. -/
def builtinPriority : List BuiltinName :=
  [BuiltinName.poseidon, BuiltinName.ec_op, BuiltinName.bitwise,
   BuiltinName.range_check, BuiltinName.pedersen]

/-- The debug name each builtin is recognized by. -/
def builtinParamName : BuiltinName → String
| BuiltinName.poseidon => "Poseidon"
| BuiltinName.ec_op => "EcOp"
| BuiltinName.bitwise => "Bitwise"
| BuiltinName.range_check => "RangeCheck"
| BuiltinName.pedersen => "Pedersen"

/-- The generic type id keyed in the offset map for each builtin. -/
def builtinGenericId : BuiltinName → GenericTypeId
| BuiltinName.poseidon => GenericTypeId.Poseidon
| BuiltinName.ec_op => GenericTypeId.EcOp
| BuiltinName.bitwise => GenericTypeId.Bitwise
| BuiltinName.range_check => GenericTypeId.RangeCheck
| BuiltinName.pedersen => GenericTypeId.Pedersen

/-- Association-list lookup modelling `HashMap::get` on the builtin offset
map (keys are inserted at most once). -/
def lookupOffset : List (GenericTypeId × Int) → GenericTypeId → Option Int
| [], _ => none
| (k, v) :: rest, g => if k = g then some v else lookupOffset rest g

/-- The casm instructions emitted by `create_entry_code`, one constructor
per source line shape, carrying the operands the source computes. -/
inductive Instr
| apAddSegmentHint
| arrAssertImm (v : Nat)
| arrWriteToSegment (arrAt : Int) (idx : Int)
| arenaSegments
| assertZeroApInc
| arenaLinkInfos
| arenaLinkConstructed
| arenaLinkDestructed
| copyFpRel (offset : Int)
| gasImm (gas : Nat)
| arenaPtr (offset : Int)
| singleImm (v : Nat)
| arrayPtrCopy (offset : Int)
| arrayEndPtr (len : Nat)
| callRel (offset : Int)
| ret
deriving DecidableEq

/-- Failures of `create_entry_code`.  `IterUnwrapPanic` models the
`array_args_data_iter.next().unwrap()` panic (it is proved unreachable
below when the staged-offset list matches the argument list). -/
inductive EntryErr
| ArgumentsSizeMismatch (expected actual : Int)
| ArgumentUnaligned (param_index arg_index : Nat)
| IterUnwrapPanic
deriving DecidableEq

/-- Model of `iter().enumerate()` starting at a given index. -/
def enumerate {α : Type} : Nat → List α → List (Nat × α)
| _, [] => []
| n, a :: rest => (n, a) :: enumerate (n + 1) rest

/-- The per-element staging instructions for one array argument: for element
`i` of the array, assert its value into `[ap + 0]` and write it to cell
`i` of the segment whose pointer sits `i + 1` cells back. -/
def arrayElemInstrs (values : List Nat) : List Instr :=
  (enumerate 0 values).flatMap
    (fun p => [Instr.arrAssertImm p.2, Instr.arrWriteToSegment ((p.1 : Int) + 1) (p.1 : Int)])

/-- The array-staging loop of `create_entry_code` (runner.rs lines 608-627):
for each array argument, remember the current ap offset, allocate a
segment, write the elements, and advance the offset by `1 + len`.
Returns the emitted instructions, the recorded offsets (the
`array_args_data` vector), and the final ap offset. -/
def stageArrays : List FuncArg → Int → List Instr × List Int × Int
| [], ap_offset => ([], [], ap_offset)
| FuncArg.Single _ :: rest, ap_offset => stageArrays rest ap_offset
| FuncArg.Array values :: rest, ap_offset =>
  let staged := stageArrays rest (ap_offset + 1 + (values.length : Int))
  (Instr.apAddSegmentHint :: arrayElemInstrs values ++ staged.1,
   ap_offset :: staged.2.1, staged.2.2)

/-- The state of the argument-consumption loop after a parameter has been
(partially) filled. -/
structure FillState where
  args : List (Nat × FuncArg)
  arrOffsets : List Int
  instrs : List Instr
  ap_offset : Int
deriving DecidableEq

/-- The inner `while ap_offset < param_ap_offset_end` loop of
`create_entry_code` (runner.rs lines 687-713): consume enumerated caller
arguments until the parameter's slot budget is filled.  A scalar
argument writes one immediate slot; an array argument writes its staged
segment pointer and computed end pointer (two slots) and must not cross
the parameter's end boundary. -/
def fillParam (param_index : Nat) (param_end : Int) :
    List (Nat × FuncArg) → List Int → List Instr → Int → Except EntryErr FillState
| args, arrOffsets, instrs, ap_offset =>
  if ap_offset < param_end then
    match args with
    | [] => Except.ok ⟨[], arrOffsets, instrs, ap_offset⟩
    | (_, FuncArg.Single v) :: rest =>
      fillParam param_index param_end rest arrOffsets
        (instrs ++ [Instr.singleImm v]) (ap_offset + 1)
    | (arg_index, FuncArg.Array values) :: rest =>
      match arrOffsets with
      | [] => Except.error EntryErr.IterUnwrapPanic
      | staged :: offRest =>
        let instrs2 := instrs ++
          [Instr.arrayPtrCopy (-ap_offset + staged), Instr.arrayEndPtr values.length]
        if param_end < ap_offset + 2 then
          Except.error (EntryErr.ArgumentUnaligned param_index arg_index)
        else fillParam param_index param_end rest offRest instrs2 (ap_offset + 2)
  else Except.ok ⟨args, arrOffsets, instrs, ap_offset⟩

/-- The running state of the per-parameter loop of `create_entry_code`. -/
structure EntryState where
  instrs : List Instr
  ap_offset : Int
  args : List (Nat × FuncArg)
  arrOffsets : List Int
  param_index : Nat
  expected_arguments_size : Int
deriving DecidableEq

/-- One iteration of the `for ty in func.signature.param_types` loop of
`create_entry_code` (runner.rs lines 652-716): a builtin parameter copies
`[fp - offset]` (offset shifted by 2 in proof mode); the system resource
allocates a segment; the gas resource pushes the initial gas constant;
the segment arena pushes a pointer past its 3-word preamble; any other
type consumes caller arguments for its declared size. -/
def processParam (proof_mode : Bool) (initial_gas : Nat)
    (builtin_offset : List (GenericTypeId × Int)) (after_arrays_data_offset : Int)
    (ty : ParamTy) (st : EntryState) : Except EntryErr EntryState :=
  match lookupOffset builtin_offset ty.genericId with
  | some offset0 =>
    Except.ok { st with
      instrs := st.instrs ++ [Instr.copyFpRel (if proof_mode then offset0 + 2 else offset0)],
      ap_offset := st.ap_offset + 1 }
  | none =>
    if ty.genericId = GenericTypeId.System then
      Except.ok { st with instrs := st.instrs ++ [Instr.apAddSegmentHint],
                          ap_offset := st.ap_offset + 1 }
    else if ty.genericId = GenericTypeId.GasBuiltin then
      Except.ok { st with instrs := st.instrs ++ [Instr.gasImm initial_gas],
                          ap_offset := st.ap_offset + 1 }
    else if ty.genericId = GenericTypeId.SegmentArena then
      Except.ok { st with
        instrs := st.instrs ++ [Instr.arenaPtr (-st.ap_offset + after_arrays_data_offset)],
        ap_offset := st.ap_offset + 1 }
    else
      match fillParam st.param_index (st.ap_offset + ty.size)
          st.args st.arrOffsets st.instrs st.ap_offset with
      | Except.error e => Except.error e
      | Except.ok fs =>
        Except.ok { instrs := fs.instrs, ap_offset := fs.ap_offset, args := fs.args,
                    arrOffsets := fs.arrOffsets, param_index := st.param_index + 1,
                    expected_arguments_size := st.expected_arguments_size + ty.size }

/-- The whole per-parameter loop. -/
def processParams (proof_mode : Bool) (initial_gas : Nat)
    (builtin_offset : List (GenericTypeId × Int)) (after_arrays_data_offset : Int) :
    List ParamTy → EntryState → Except EntryErr EntryState
| [], st => Except.ok st
| ty :: rest, st =>
  match processParam proof_mode initial_gas builtin_offset after_arrays_data_offset ty st with
  | Except.error e => Except.error e
  | Except.ok st' =>
    processParams proof_mode initial_gas builtin_offset after_arrays_data_offset rest st'

/-- The slot count of the supplied caller arguments: 1 per scalar, 2 per
array (runner.rs lines 717-723). -/
def actualArgsSize (args : List FuncArg) : Int :=
  (args.map (fun arg =>
    match arg with
    | FuncArg.Single _ => (1 : Int)
    | FuncArg.Array _ => 2)).sum

/-- The fixed 3-slot segment-arena preamble (runner.rs lines 638-649):
allocate the arena and infos segments, write a zero counter, and
cross-link infos pointer plus both counters. -/
def arenaPreamble : List Instr :=
  [Instr.arenaSegments, Instr.assertZeroApInc, Instr.arenaLinkInfos,
   Instr.arenaLinkConstructed, Instr.arenaLinkDestructed]

/-- Model of `create_entry_code` (runner.rs lines 594-743): resolve the
builtins, stage all array arguments, lay down the segment-arena preamble
when needed, process every declared parameter, validate the total
argument size, and append the trailing `call rel`/`ret` pair. -/
def create_entry_code (func_params : List ParamTy) (initial_gas : Nat) (proof_mode : Bool)
    (args : List FuncArg) (entry_point_code_offset : Int) :
    Except EntryErr (List Instr × List BuiltinName) :=
  let gfb := get_function_builtins func_params
  let staged := stageArrays args 0
  let after_arrays_data_offset := staged.2.2
  let hasArena := func_params.any (fun p => p.genericId == GenericTypeId.SegmentArena)
  let st0 : EntryState :=
    ⟨if hasArena then staged.1 ++ arenaPreamble else staged.1,
     if hasArena then after_arrays_data_offset + 3 else after_arrays_data_offset,
     enumerate 0 args, staged.2.1, 0, 0⟩
  match processParams proof_mode initial_gas gfb.2 after_arrays_data_offset func_params st0 with
  | Except.error e => Except.error e
  | Except.ok st =>
    let actual := actualArgsSize args
    if st.expected_arguments_size ≠ actual then
      Except.error (EntryErr.ArgumentsSizeMismatch st.expected_arguments_size actual)
    else
      Except.ok
        (st.instrs ++ [Instr.callRel (3 + entry_point_code_offset), Instr.ret], gfb.1)

/-- A parameter is an ordinary (user value) parameter when it reaches the
final branch of the parameter loop: no resolver offset and none of the
three resource types. -/
def isUserParam (builtin_offset : List (GenericTypeId × Int)) (p : ParamTy) : Bool :=
  match lookupOffset builtin_offset p.genericId with
  | some _ => false
  | none =>
    if p.genericId = GenericTypeId.System then false
    else if p.genericId = GenericTypeId.GasBuiltin then false
    else if p.genericId = GenericTypeId.SegmentArena then false
    else true

/-- The sum of declared sizes of all non-resource parameters, the figure
`expected_arguments_size` accumulates. -/
def expectedArgsSize (builtin_offset : List (GenericTypeId × Int))
    (func_params : List ParamTy) : Int :=
  ((func_params.filter (isUserParam builtin_offset)).map ParamTy.size).sum

/-- Whether a caller argument is an array argument. -/
def isArrayArg : FuncArg → Bool
| FuncArg.Array _ => true
| FuncArg.Single _ => false

/-- Number of array arguments in a plain argument list. -/
def countArraysPlain (args : List FuncArg) : Nat :=
  args.countP isArrayArg

/-- Number of array arguments in an enumerated argument list. -/
def countArraysEnum (args : List (Nat × FuncArg)) : Nat :=
  args.countP (fun p => isArrayArg p.2)

/-- A concrete memory holding 7 and 8 at cells (1, 0) and (1, 1). -/
def memFlagZero : Mem := fun s o => if s = 1 ∧ o < 2 then some (o + 7) else none

/-- A concrete memory holding 40 and 41 at cells (0, 0) and (0, 1). -/
def memNonzeroFlag : Mem := fun s o => if s = 0 ∧ o < 2 then some (o + 40) else none

/-- A concrete memory with no readable cell. -/
def memEmptyRead : Mem := fun _ _ => none

/-- A concrete memory holding 10, 20, 30 at cells (2, 1) to (2, 3). -/
def memThreeScalars : Mem := fun s o => if s = 2 ∧ 1 ≤ o ∧ o < 4 then some (o * 10) else none

lemma hasParamNamed_perm {ps qs : List ParamTy} (h : ps.Perm qs) (n : String) :
    hasParamNamed qs n = hasParamNamed ps n := by
  unfold hasParamNamed
  induction h with
  | nil => rfl
  | cons x _ ih => simp [List.any_cons, ih]
  | swap x y l => simp [List.any_cons, ← Bool.or_assoc, Bool.or_comm]
  | trans _ _ ih1 ih2 => rw [ih2, ih1]

lemma get_function_builtins_char (ps : List ParamTy) :
    get_function_builtins ps =
      ((builtinPriority.filter (fun b => hasParamNamed ps (builtinParamName b))).reverse,
       (enumerate 0 (builtinPriority.filter (fun b => hasParamNamed ps (builtinParamName b)))).map
         (fun p => (builtinGenericId p.2, 3 + (p.1 : Int)))) := by
  cases h1 : hasParamNamed ps ("Poseidon") <;>
  cases h2 : hasParamNamed ps ("EcOp") <;>
  cases h3 : hasParamNamed ps ("Bitwise") <;>
  cases h4 : hasParamNamed ps ("RangeCheck") <;>
  cases h5 : hasParamNamed ps ("Pedersen") <;>
  simp [get_function_builtins, builtinPriority, builtinParamName, builtinGenericId,
    h1, h2, h3, h4, h5, enumerate, List.filter_cons, List.filter_nil]

/-- Claim C1, counterexample to the claim as stated: with raw return values
`[0, ptr_start, ptr_end]` (success flag 0) under the panic-result
convention, pointers two cells apart and both cells readable, the
decoder does not fail with a panic error at all: the zero flag selects
the success branch, the flag is dropped, and the pointer pair is
reconstructed as a decoded array. -/
theorem panic_flag_zero_counterexample :
    run_decode memFlagZero (some "core::panics::PanicResult::core::felt252")
      [MaybeRelocatable.Int 0, MaybeRelocatable.RelocatableValue ⟨1, 0⟩,
       MaybeRelocatable.RelocatableValue ⟨1, 2⟩] =
      Except.ok [ReturnValue.Array [ReturnValue.Int 7, ReturnValue.Int 8]] ∧
    (Except.ok [ReturnValue.Array [ReturnValue.Int 7, ReturnValue.Int 8]] :
        Except RunError (List ReturnValue)) ≠
      Except.error (RunError.RunPanic [7, 8]) :=
  ⟨rfl, fun h => Except.noConfusion h⟩

/-- Claim C1 as amended: for every run under the panic-result convention
whose raw return values are `[flag, ptr_start, ptr_end]` with a nonzero
failure flag, `ptr_end - ptr_start = k`, and memory at
`ptr_start..ptr_end` holding k scalars, the decoder fails the whole run
with a panic error carrying exactly those k scalars, in order. -/
theorem panic_decoding_nonzero_flag (mem : Mem) (name : String) (flag : MaybeRelocatable)
    (s : Int) (o k : Nat) (data : List Nat)
    (hname : isPanicResultName name = true)
    (hflag : flag ≠ MaybeRelocatable.Int 0)
    (hmem : get_integer_range mem ⟨s, o⟩ k = some data) :
    run_decode mem (some name)
      [flag, MaybeRelocatable.RelocatableValue ⟨s, o⟩,
       MaybeRelocatable.RelocatableValue ⟨s, o + k⟩] =
      Except.error (RunError.RunPanic data) := by
  unfold run_decode
  simp [decode_return_values, hname, hflag, get_relocatable, usizeSub, rel_sub, hmem]

/-- Witness for `panic_decoding_nonzero_flag` at flag 1, k = 2. -/
theorem panic_decoding_nonzero_flag_witness :
    run_decode memNonzeroFlag (some "core::panics::PanicResult::core::felt252")
      [MaybeRelocatable.Int 1, MaybeRelocatable.RelocatableValue ⟨0, 0⟩,
       MaybeRelocatable.RelocatableValue ⟨0, 2⟩] =
      Except.error (RunError.RunPanic [40, 41]) :=
  panic_decoding_nonzero_flag memNonzeroFlag _ _ 0 0 2 [40, 41] (by decide) (by decide) rfl

/-- Claim C2: under the panic-result convention with a zero success flag,
the decoder drops the flag and keeps the remaining slots as the payload,
and it returns an extraction error whenever fewer than 3 raw return
values were extracted in this branch. -/
theorem panic_success_branch (mem : Mem) (name : String) (rvs : List MaybeRelocatable)
    (hname : isPanicResultName name = true)
    (hflag : rvs.head? = some (MaybeRelocatable.Int 0)) :
    (rvs.length < 3 → decode_return_values mem (some name) rvs =
       Except.error RunError.FailedToExtractReturnValues) ∧
    (3 ≤ rvs.length → decode_return_values mem (some name) rvs = Except.ok (rvs.drop 1)) := by
  constructor
  · intro h3
    simp [decode_return_values, hname, hflag, h3]
  · intro h3
    simp [decode_return_values, hname, hflag, Nat.not_lt.mpr h3]

/-- Witness for `panic_success_branch`: three raw values succeed with the
flag dropped; two raw values produce the extraction error. -/
theorem panic_success_branch_witness :
    decode_return_values memEmptyRead (some "core::panics::PanicResult::x")
      [MaybeRelocatable.Int 0, MaybeRelocatable.Int 4, MaybeRelocatable.Int 5] =
      Except.ok [MaybeRelocatable.Int 4, MaybeRelocatable.Int 5] ∧
    decode_return_values memEmptyRead (some "core::panics::PanicResult::x")
      [MaybeRelocatable.Int 0, MaybeRelocatable.Int 4] =
      Except.error RunError.FailedToExtractReturnValues :=
  ⟨(panic_success_branch memEmptyRead _ _ (by decide) (by decide)).2 (by decide),
   (panic_success_branch memEmptyRead _ _ (by decide) (by decide)).1 (by decide)⟩

/-- Claim C3: the resolver's offset map lists the builtins in the fixed
priority order poseidon, ec-op, bitwise, range-check, pedersen with
contiguous offsets starting at 3; the returned builtin-name list is the
reverse of that discovery order; each builtin appears at most once; and
the result is unchanged under any reordering of the parameter list. -/
theorem builtin_resolver_priority (ps : List ParamTy) :
    ((get_function_builtins ps).2 =
      (enumerate 0 (builtinPriority.filter (fun b => hasParamNamed ps (builtinParamName b)))).map
        (fun p => (builtinGenericId p.2, 3 + (p.1 : Int)))) ∧
    ((get_function_builtins ps).1 =
      (builtinPriority.filter (fun b => hasParamNamed ps (builtinParamName b))).reverse) ∧
    ((get_function_builtins ps).2.map Prod.fst).Nodup ∧
    (∀ qs : List ParamTy, ps.Perm qs → get_function_builtins qs = get_function_builtins ps) := by
  refine ⟨by rw [get_function_builtins_char], by rw [get_function_builtins_char], ?_, ?_⟩
  · rw [get_function_builtins_char]
    cases h1 : hasParamNamed ps ("Poseidon") <;>
    cases h2 : hasParamNamed ps ("EcOp") <;>
    cases h3 : hasParamNamed ps ("Bitwise") <;>
    cases h4 : hasParamNamed ps ("RangeCheck") <;>
    cases h5 : hasParamNamed ps ("Pedersen") <;>
    simp [builtinPriority, builtinParamName, builtinGenericId,
      h1, h2, h3, h4, h5, enumerate, List.filter_cons, List.filter_nil]
  · intro qs hperm
    rw [get_function_builtins_char ps, get_function_builtins_char qs]
    have hn : ∀ b, hasParamNamed qs (builtinParamName b) = hasParamNamed ps (builtinParamName b) :=
      fun b => hasParamNamed_perm hperm _
    simp only [hn]

/-- Witness for `builtin_resolver_priority`: the permutation clause applied
to a two-parameter list declared in reverse priority order. -/
theorem builtin_resolver_priority_witness :
    get_function_builtins
      [⟨some "Poseidon", GenericTypeId.Poseidon, 1⟩,
       ⟨some "RangeCheck", GenericTypeId.RangeCheck, 1⟩] =
    get_function_builtins
      [⟨some "RangeCheck", GenericTypeId.RangeCheck, 1⟩,
       ⟨some "Poseidon", GenericTypeId.Poseidon, 1⟩] :=
  (builtin_resolver_priority
    [⟨some "RangeCheck", GenericTypeId.RangeCheck, 1⟩,
     ⟨some "Poseidon", GenericTypeId.Poseidon, 1⟩]).2.2.2
    [⟨some "Poseidon", GenericTypeId.Poseidon, 1⟩,
     ⟨some "RangeCheck", GenericTypeId.RangeCheck, 1⟩]
    (List.Perm.swap _ _ _)

/-- Claim C5: if consuming an array argument while filling an ordinary
value parameter would cross the parameter's end boundary (the loop is
still below the budget but the array's two slots overshoot it), the
filling loop fails with an argument-unaligned error carrying the
parameter index and the offending argument index; the array is never
split across the boundary. -/
theorem array_split_unaligned_error (param_index arg_index : Nat) (param_end : Int)
    (values : List Nat) (rest : List (Nat × FuncArg)) (staged : Int) (offRest : List Int)
    (instrs : List Instr) (ap_offset : Int)
    (hlt : ap_offset < param_end) (hcross : param_end < ap_offset + 2) :
    fillParam param_index param_end ((arg_index, FuncArg.Array values) :: rest)
      (staged :: offRest) instrs ap_offset =
      Except.error (EntryErr.ArgumentUnaligned param_index arg_index) := by
  unfold fillParam
  simp [hlt, hcross]

/-- Witness for `array_split_unaligned_error` at parameter 3, argument 7. -/
theorem array_split_unaligned_error_witness :
    (0 : Int) < 1 ∧ (1 : Int) < 0 + 2 ∧
    fillParam 3 1 [(7, FuncArg.Array [5])] [0] [] 0 =
      Except.error (EntryErr.ArgumentUnaligned 3 7) :=
  ⟨by decide, by decide,
   array_split_unaligned_error 3 7 1 [5] [] 0 [] [] 0 (by decide) (by decide)⟩

/-- Claim C6: a parameter whose generic type was assigned a builtin frame
offset by the resolver makes the synthesizer emit exactly one
instruction, copying `[fp - offset]` to the next stack slot, where the
offset is the resolver's offset plus 2 when proof mode is enabled and
the resolver's offset unchanged otherwise. -/
theorem builtin_param_copy (proof_mode : Bool) (initial_gas : Nat)
    (builtin_offset : List (GenericTypeId × Int)) (after_arrays_data_offset : Int)
    (ty : ParamTy) (st : EntryState) (offset : Int)
    (h : lookupOffset builtin_offset ty.genericId = some offset) :
    processParam proof_mode initial_gas builtin_offset after_arrays_data_offset ty st =
      Except.ok { st with
        instrs := st.instrs ++ [Instr.copyFpRel (if proof_mode then offset + 2 else offset)],
        ap_offset := st.ap_offset + 1 } := by
  unfold processParam
  rw [h]

/-- Witness for `builtin_param_copy`: the range-check builtin at resolver
offset 3 in proof mode copies `[fp - 5]`. -/
theorem builtin_param_copy_witness :
    processParam true 9999 [(GenericTypeId.RangeCheck, 3)] 0
      ⟨some "RangeCheck", GenericTypeId.RangeCheck, 1⟩ ⟨[], 0, [], [], 0, 0⟩ =
      Except.ok ⟨[Instr.copyFpRel 5], 1, [], [], 0, 0⟩ :=
  builtin_param_copy true 9999 [(GenericTypeId.RangeCheck, 3)] 0
    ⟨some "RangeCheck", GenericTypeId.RangeCheck, 1⟩ ⟨[], 0, [], [], 0, 0⟩ 3 rfl

/-- Claim C7: outside the panic convention, raw return values
`[ptr_A, ptr_B]` in the same segment with `ptr_B.offset - ptr_A.offset = 3`
and 3 readable scalars at `ptr_A` decode to exactly one value: an array
of those 3 scalars, in order. -/
theorem array_return_reconstruction (mem : Mem) (name : String) (s : Int) (o : Nat)
    (data : List Nat)
    (hname : isPanicResultName name = false)
    (hmem : get_integer_range mem ⟨s, o⟩ 3 = some data) :
    run_decode mem (some name)
      [MaybeRelocatable.RelocatableValue ⟨s, o⟩, MaybeRelocatable.RelocatableValue ⟨s, o + 3⟩] =
      Except.ok [ReturnValue.Array (data.map ReturnValue.Int)] := by
  have hne : (⟨s, o⟩ : Relocatable) ≠ ⟨s, o + 3⟩ := by
    intro h
    cases h
  unfold run_decode
  simp [decode_return_values, hname, fetch_arrays_from_memory, fetchOne, hne,
    List.dropWhile, hmem]

/-- Witness for `array_return_reconstruction` at segment 2, offset 1. -/
theorem array_return_reconstruction_witness :
    run_decode memThreeScalars (some "core::integer::u32")
      [MaybeRelocatable.RelocatableValue ⟨2, 1⟩, MaybeRelocatable.RelocatableValue ⟨2, 4⟩] =
      Except.ok [ReturnValue.Array [ReturnValue.Int 10, ReturnValue.Int 20, ReturnValue.Int 30]] :=
  array_return_reconstruction memThreeScalars _ 2 1 [10, 20, 30] (by decide) rfl

/-- Claim C8: the argument parser accepts the empty string as an empty
argument list, but an invalid token does not produce an error value:
the code calls `Felt252::from_dec_str(..).unwrap()`, which panics. -/
theorem invalid_token_panics_and_empty_ok :
    process_args ("abc") = ParseOutcome.panicFromDecStr ∧
    process_args ("") = ParseOutcome.ok [] := by
  decide

/-- Claim C9: on an input that opens an array with `[` and never closes it,
the parser does not surface an error: the inner collection loop keeps
polling the exhausted token iterator forever. -/
theorem unterminated_array_diverges :
    process_args ("[1") = ParseOutcome.divergesUnterminatedArray := by
  decide

/-- Claim C10: in the panic branch, the start-pointer index is
`return_values.len() - 2` with no length guard, so a panic-branch entry
with exactly one raw return value that is a pointer underflows the
`usize` subtraction (a checked-arithmetic panic) instead of reaching the
clean extraction-failure error. -/
theorem panic_branch_single_pointer_underflow (mem : Mem) (name : String) (r : Relocatable)
    (hname : isPanicResultName name = true) :
    decode_return_values mem (some name) [MaybeRelocatable.RelocatableValue r] =
      Except.error RunError.UsizeUnderflowPanic := by
  simp [decode_return_values, hname, get_relocatable, usizeSub]

/-- Witness for `panic_branch_single_pointer_underflow`. -/
theorem panic_branch_single_pointer_underflow_witness :
    decode_return_values memEmptyRead (some "core::panics::PanicResult::x")
      [MaybeRelocatable.RelocatableValue ⟨0, 0⟩] =
      Except.error RunError.UsizeUnderflowPanic :=
  panic_branch_single_pointer_underflow memEmptyRead _ ⟨0, 0⟩ (by decide)

lemma countArraysEnum_enumerate (n : Nat) (args : List FuncArg) :
    countArraysEnum (enumerate n args) = countArraysPlain args := by
  induction args generalizing n with
  | nil => rfl
  | cons a rest ih =>
    simp [enumerate, countArraysEnum, countArraysPlain, List.countP_cons] at *
    rw [ih]

lemma stageArrays_offsets_length (args : List FuncArg) (ap : Int) :
    (stageArrays args ap).2.1.length = countArraysPlain args := by
  induction args generalizing ap with
  | nil => rfl
  | cons a rest ih =>
    cases a with
    | Single v => simpa [stageArrays, countArraysPlain, List.countP_cons, isArrayArg] using ih ap
    | Array values =>
      simp [stageArrays, countArraysPlain, List.countP_cons, isArrayArg]
      exact ih _

lemma fillParam_cases (pi : Nat) (pe : Int) :
    ∀ (args : List (Nat × FuncArg)) (offs : List Int) (instrs : List Instr) (ap : Int),
    offs.length = countArraysEnum args →
    (∃ ai, fillParam pi pe args offs instrs ap =
       Except.error (EntryErr.ArgumentUnaligned pi ai)) ∨
    (∃ fs, fillParam pi pe args offs instrs ap = Except.ok fs ∧
       fs.arrOffsets.length = countArraysEnum fs.args) := by
  intro args
  induction args with
  | nil =>
    intro offs instrs ap h
    right
    unfold fillParam
    by_cases hlt : ap < pe <;> simp [hlt] <;> exact h
  | cons head rest ih =>
    intro offs instrs ap h
    by_cases hlt : ap < pe
    · obtain ⟨ai, arg⟩ := head
      cases arg with
      | Single v =>
        have h' : offs.length = countArraysEnum rest := by
          simpa [countArraysEnum, List.countP_cons, isArrayArg] using h
        have := ih offs (instrs ++ [Instr.singleImm v]) (ap + 1) h'
        unfold fillParam
        simpa [hlt] using this
      | Array values =>
        have hcount : countArraysEnum ((ai, FuncArg.Array values) :: rest) =
            countArraysEnum rest + 1 := by
          simp [countArraysEnum, List.countP_cons, isArrayArg]
        rw [hcount] at h
        cases offs with
        | nil => simp at h
        | cons staged offRest =>
          have h' : offRest.length = countArraysEnum rest := by simpa using h
          by_cases hcross : pe < ap + 2
          · left
            exact ⟨ai, by unfold fillParam; simp [hlt, hcross]⟩
          · have := ih offRest
              (instrs ++ [Instr.arrayPtrCopy (-ap + staged), Instr.arrayEndPtr values.length])
              (ap + 2) h'
            unfold fillParam
            simpa [hlt, hcross] using this
    · right
      refine ⟨⟨head :: rest, offs, instrs, ap⟩, ?_, h⟩
      unfold fillParam
      simp [hlt]

lemma processParam_cases (pm : Bool) (gas : Nat) (boff : List (GenericTypeId × Int))
    (aado : Int) (ty : ParamTy) (st : EntryState)
    (h : st.arrOffsets.length = countArraysEnum st.args) :
    (∃ pi ai, processParam pm gas boff aado ty st =
       Except.error (EntryErr.ArgumentUnaligned pi ai)) ∨
    (∃ st', processParam pm gas boff aado ty st = Except.ok st' ∧
       st'.arrOffsets.length = countArraysEnum st'.args ∧
       st'.expected_arguments_size =
         st.expected_arguments_size + (if isUserParam boff ty then ty.size else 0)) := by
  unfold processParam isUserParam
  cases hlk : lookupOffset boff ty.genericId with
  | some off =>
    right
    exact ⟨_, rfl, by simpa using h, by simp⟩
  | none =>
    by_cases hsys : ty.genericId = GenericTypeId.System
    · right
      refine ⟨_, by rw [if_pos hsys], by simpa using h, by simp [hsys]⟩
    · by_cases hgas : ty.genericId = GenericTypeId.GasBuiltin
      · right
        refine ⟨_, by rw [if_neg hsys, if_pos hgas], by simpa using h, by simp [hsys, hgas]⟩
      · by_cases harena : ty.genericId = GenericTypeId.SegmentArena
        · right
          refine ⟨_, by rw [if_neg hsys, if_neg hgas, if_pos harena],
            by simpa using h, by simp [hsys, hgas, harena]⟩
        · rcases fillParam_cases st.param_index (st.ap_offset + ty.size)
            st.args st.arrOffsets st.instrs st.ap_offset h with ⟨ai, heq⟩ | ⟨fs, heq, hinv⟩
          · left
            refine ⟨st.param_index, ai, ?_⟩
            rw [if_neg hsys, if_neg hgas, if_neg harena, heq]
          · right
            refine ⟨⟨fs.instrs, fs.ap_offset, fs.args, fs.arrOffsets, st.param_index + 1,
              st.expected_arguments_size + ty.size⟩, ?_, by simpa using hinv,
              by simp [hsys, hgas, harena]⟩
            rw [if_neg hsys, if_neg hgas, if_neg harena, heq]

lemma expectedArgsSize_cons (boff : List (GenericTypeId × Int)) (ty : ParamTy)
    (rest : List ParamTy) :
    expectedArgsSize boff (ty :: rest) =
      (if isUserParam boff ty then ty.size else 0) + expectedArgsSize boff rest := by
  by_cases hu : isUserParam boff ty <;> simp [expectedArgsSize, List.filter_cons, hu]

lemma processParams_cases (pm : Bool) (gas : Nat) (boff : List (GenericTypeId × Int))
    (aado : Int) :
    ∀ (tys : List ParamTy) (st : EntryState),
    st.arrOffsets.length = countArraysEnum st.args →
    (∃ pi ai, processParams pm gas boff aado tys st =
       Except.error (EntryErr.ArgumentUnaligned pi ai)) ∨
    (∃ st', processParams pm gas boff aado tys st = Except.ok st' ∧
       st'.expected_arguments_size =
         st.expected_arguments_size + expectedArgsSize boff tys) := by
  intro tys
  induction tys with
  | nil =>
    intro st h
    right
    exact ⟨st, rfl, by simp [expectedArgsSize]⟩
  | cons ty rest ih =>
    intro st h
    rcases processParam_cases pm gas boff aado ty st h with ⟨pi, ai, heq⟩ | ⟨st', heq, hinv, hexp⟩
    · left
      exact ⟨pi, ai, by unfold processParams; rw [heq]⟩
    · rcases ih st' hinv with ⟨pi, ai, heq2⟩ | ⟨st2, heq2, hexp2⟩
      · left
        exact ⟨pi, ai, by unfold processParams; rw [heq]; exact heq2⟩
      · right
        refine ⟨st2, by unfold processParams; rw [heq]; exact heq2, ?_⟩
        rw [hexp2, hexp, expectedArgsSize_cons]
        ring

/-- Claim C4 as amended: whenever the sum of declared sizes of the
non-resource parameters differs from the total slot count of the
supplied arguments, entry-code synthesis fails before the trailing call
instruction is emitted — with the arguments-size-mismatch error
reporting both figures when parameter filling completed, or with the
earlier argument-unaligned error when an array argument crossed a
parameter boundary first. -/
theorem size_mismatch_rejected (func_params : List ParamTy) (initial_gas : Nat)
    (proof_mode : Bool) (args : List FuncArg) (epo : Int)
    (hne : expectedArgsSize (get_function_builtins func_params).2 func_params ≠
           actualArgsSize args) :
    create_entry_code func_params initial_gas proof_mode args epo =
      Except.error (EntryErr.ArgumentsSizeMismatch
        (expectedArgsSize (get_function_builtins func_params).2 func_params)
        (actualArgsSize args)) ∨
    ∃ pi ai, create_entry_code func_params initial_gas proof_mode args epo =
      Except.error (EntryErr.ArgumentUnaligned pi ai) := by
  have hinv : (stageArrays args 0).2.1.length = countArraysEnum (enumerate 0 args) := by
    rw [stageArrays_offsets_length, countArraysEnum_enumerate]
  rcases processParams_cases proof_mode initial_gas (get_function_builtins func_params).2
      (stageArrays args 0).2.2 func_params
      ⟨if func_params.any (fun p => p.genericId == GenericTypeId.SegmentArena) then
          (stageArrays args 0).1 ++ arenaPreamble else (stageArrays args 0).1,
       if func_params.any (fun p => p.genericId == GenericTypeId.SegmentArena) then
          (stageArrays args 0).2.2 + 3 else (stageArrays args 0).2.2,
       enumerate 0 args, (stageArrays args 0).2.1, 0, 0⟩ hinv with
    ⟨pi, ai, heq⟩ | ⟨st', heq, hexp⟩
  · right
    refine ⟨pi, ai, ?_⟩
    simp only [create_entry_code]
    rw [heq]
  · left
    have hexp' : st'.expected_arguments_size =
        expectedArgsSize (get_function_builtins func_params).2 func_params := by
      rw [hexp]
      ring
    simp only [create_entry_code]
    rw [heq]
    simp [hexp', hne]

/-- Claim C4, counterexample to the claim as stated: a single ordinary
parameter of declared size 1 with a single (empty) array argument has
expected size 1 against actual slot count 2, yet synthesis fails with
the argument-unaligned error, not the arguments-size-mismatch error the
claim mandates for every differing pair of figures. -/
theorem size_mismatch_preempted_counterexample :
    create_entry_code [⟨none, GenericTypeId.UserType 0, 1⟩] 0 true [FuncArg.Array []] 0 =
      Except.error (EntryErr.ArgumentUnaligned 0 0) ∧
    expectedArgsSize (get_function_builtins [⟨none, GenericTypeId.UserType 0, 1⟩]).2
      [⟨none, GenericTypeId.UserType 0, 1⟩] = 1 ∧
    actualArgsSize [FuncArg.Array []] = 2 ∧
    (Except.error (EntryErr.ArgumentUnaligned 0 0) :
        Except EntryErr (List Instr × List BuiltinName)) ≠
      Except.error (EntryErr.ArgumentsSizeMismatch 1 2) :=
  ⟨rfl, rfl, rfl, by simp⟩

/-- Witness for `size_mismatch_rejected`: one scalar argument against a
parameter of declared size 2. -/
theorem size_mismatch_rejected_witness :
    expectedArgsSize (get_function_builtins [⟨none, GenericTypeId.UserType 0, 2⟩]).2
      [⟨none, GenericTypeId.UserType 0, 2⟩] ≠ actualArgsSize [FuncArg.Single 5] ∧
    (create_entry_code [⟨none, GenericTypeId.UserType 0, 2⟩] 0 true [FuncArg.Single 5] 0 =
       Except.error (EntryErr.ArgumentsSizeMismatch
         (expectedArgsSize (get_function_builtins [⟨none, GenericTypeId.UserType 0, 2⟩]).2
           [⟨none, GenericTypeId.UserType 0, 2⟩])
         (actualArgsSize [FuncArg.Single 5])) ∨
     ∃ pi ai,
       create_entry_code [⟨none, GenericTypeId.UserType 0, 2⟩] 0 true [FuncArg.Single 5] 0 =
         Except.error (EntryErr.ArgumentUnaligned pi ai)) :=
  ⟨by decide,
   size_mismatch_rejected [⟨none, GenericTypeId.UserType 0, 2⟩] 0 true [FuncArg.Single 5] 0
     (by decide)⟩
